import Mathlib

/-!
Shallow embedding of the `bspparser` crate: a decoder for Quake BSP map
files.  The embedding models the seekable byte source of
`std::io::{Read, Seek}` as a list of bytes together with a cursor, all
binrw / byteorder record readers as explicit little-endian decoders on
that state, and every fallible operation as `Option` / `Except`.

Files embedded: `src/lib.rs` (header, version dispatch, section decode,
entity parser, texture directory), `src/ioextra.rs` (`read_vec`),
`src/helpers.rs` (cross-reference helpers, palette expansion) and
`src/parse.rs` (`from_cstring`).
-/

namespace Bsp

/-- A seekable byte source: the underlying bytes and the cursor position.
Models the `Read + Seek` reader threaded through `BspFile::parse`. -/
structure Reader where
  data : List Nat
  pos : Nat
  deriving Repr, DecidableEq

/-- `read_exact` of `n` bytes: fails (like an `UnexpectedEof` I/O error)
when fewer than `n` bytes remain past the cursor. -/
def readBytes (r : Reader) (n : Nat) : Option (List Nat × Reader) :=
  if r.pos + n ≤ r.data.length then
    some ((r.data.drop r.pos).take n, { r with pos := r.pos + n })
  else
    none

/-- `Seek::seek(SeekFrom::Start o)`: moves the cursor absolutely
(seeking past the end is allowed; later reads fail). -/
def seekTo (r : Reader) (o : Nat) : Reader :=
  { r with pos := o }

/-- Little-endian value of a byte list (least significant byte first). -/
def leVal : List Nat → Nat
  | [] => 0
  | b :: bs => b + 256 * leVal bs

/-- Little-endian encoding of `v` in exactly `w` bytes. -/
def leBytes : Nat → Nat → List Nat
  | 0, _ => []
  | w + 1, v => v % 256 :: leBytes w (v / 256)

/-- Read a `w`-byte little-endian unsigned integer
(`u8` / `u16` / `u32` wire scalars, and the raw bit pattern of `f32`
fields, which the claims never interpret numerically). -/
def readLE (w : Nat) (r : Reader) : Option (Nat × Reader) :=
  (readBytes r w).map fun p => (leVal p.1, p.2)

/-- Two's-complement reinterpretation of a 32-bit unsigned value,
modelling an `i32` wire scalar. -/
def toInt32 (n : Nat) : Int :=
  if n < 2 ^ 31 then (n : Int) else (n : Int) - 2 ^ 32

/-- Read a little-endian `i32`. -/
def readI32 (r : Reader) : Option (Int × Reader) :=
  (readLE 4 r).map fun p => (toInt32 p.1, p.2)

theorem leBytes_length (w v : Nat) : (leBytes w v).length = w := by
  induction w generalizing v with
  | zero => rfl
  | succ w ih => simp [leBytes, ih]

theorem leVal_leBytes (w v : Nat) (h : v < 256 ^ w) : leVal (leBytes w v) = v := by
  induction w generalizing v with
  | zero =>
    simp [Nat.pow_zero] at h
    simp [leBytes, leVal, h]
  | succ w ih =>
    have hdiv : v / 256 < 256 ^ w := by
      rw [Nat.div_lt_iff_lt_mul (by norm_num : 0 < 256)]
      calc v < 256 ^ (w + 1) := h
        _ = 256 ^ w * 256 := by ring
    simp [leBytes, leVal, ih _ hdiv]
    omega

/-- Reading `w` bytes succeeds and consumes exactly `w` positions when the
bytes past the cursor start with a `w`-byte chunk. -/
theorem readBytes_drop (r : Reader) (chunk rest : List Nat) (hw0 : 0 < w)
    (hc : r.data.drop r.pos = chunk ++ rest) (hw : chunk.length = w) :
    readBytes r w = some (chunk, { r with pos := r.pos + w }) := by
  have hlen : (r.data.drop r.pos).length = r.data.length - r.pos := List.length_drop _ _
  have hge : w ≤ r.data.length - r.pos := by
    rw [hc] at hlen
    simp [List.length_append, hw] at hlen
    omega
  have hpos : r.pos + w ≤ r.data.length := by omega
  unfold readBytes
  rw [if_pos hpos, hc]
  congr 1
  congr 1
  rw [List.take_append_of_le_length (by omega), List.take_of_length_le (by omega)]

/-- `readLE` on a stream whose next `w` bytes encode `v`. -/
theorem readLE_drop (w v : Nat) (r : Reader) (rest : List Nat) (hw0 : 0 < w)
    (hc : r.data.drop r.pos = leBytes w v ++ rest) (hv : v < 256 ^ w) :
    readLE w r = some (v, { r with pos := r.pos + w }) := by
  unfold readLE
  rw [readBytes_drop r (leBytes w v) rest hw0 hc (leBytes_length w v)]
  simp [leVal_leBytes w v hv]

/-- After consuming `w` positions, the remaining bytes are `rest`. -/
theorem drop_after (r : Reader) (chunk rest : List Nat)
    (hc : r.data.drop r.pos = chunk ++ rest) (hw : chunk.length = w) :
    r.data.drop (r.pos + w) = rest := by
  rw [← List.drop_drop, hc, ← hw, List.drop_left]

/-- A directory entry: `struct Entry { offset: u32, size: u32 }`. -/
structure Entry where
  offset : Nat
  size : Nat
  deriving Repr, DecidableEq

/-- binrw-derived reader for `Entry` (two little-endian `u32`). -/
def Entry.read (r : Reader) : Option (Entry × Reader) := do
  let (o, r) ← readLE 4 r
  let (s, r) ← readLE 4 r
  pure (⟨o, s⟩, r)

/-- `struct BspHeader`: the fixed directory of 15 entries, in wire order. -/
structure BspHeader where
  entities : Entry
  planes : Entry
  textures : Entry
  vertices : Entry
  visibility : Entry
  nodes : Entry
  texture_info : Entry
  faces : Entry
  lightmaps : Entry
  clipnodes : Entry
  leaves : Entry
  face_list : Entry
  edges : Entry
  edge_list : Entry
  models : Entry
  deriving Repr, DecidableEq

/-- binrw-derived reader for `BspHeader`: 15 sequential `Entry` reads. -/
def BspHeader.read (r : Reader) : Option (BspHeader × Reader) := do
  let (entities, r) ← Entry.read r
  let (planes, r) ← Entry.read r
  let (textures, r) ← Entry.read r
  let (vertices, r) ← Entry.read r
  let (visibility, r) ← Entry.read r
  let (nodes, r) ← Entry.read r
  let (texture_info, r) ← Entry.read r
  let (faces, r) ← Entry.read r
  let (lightmaps, r) ← Entry.read r
  let (clipnodes, r) ← Entry.read r
  let (leaves, r) ← Entry.read r
  let (face_list, r) ← Entry.read r
  let (edges, r) ← Entry.read r
  let (edge_list, r) ← Entry.read r
  let (models, r) ← Entry.read r
  pure (⟨entities, planes, textures, vertices, visibility, nodes, texture_info,
    faces, lightmaps, clipnodes, leaves, face_list, edges, edge_list, models⟩, r)

/-- Three consecutive raw `f32` bit patterns (`[f32; 3]` wire fields; the
claims never interpret float values, so each is kept as its 4-byte
little-endian bit pattern). -/
def readF3 (r : Reader) : Option ((Nat × Nat × Nat) × Reader) := do
  let (a, r) ← readLE 4 r
  let (b, r) ← readLE 4 r
  let (c, r) ← readLE 4 r
  pure ((a, b, c), r)

/-- `struct Vertex { x: f32, y: f32, z: f32 }` (bit patterns). -/
structure Vertex where
  x : Nat
  y : Nat
  z : Nat
  deriving Repr, DecidableEq

def Vertex.read (r : Reader) : Option (Vertex × Reader) := do
  let ((a, b, c), r) ← readF3 r
  pure (⟨a, b, c⟩, r)

/-- `struct Plane { normal: [f32; 3], distance: f32, kind: i32 }`. -/
structure Plane where
  normal : Nat × Nat × Nat
  distance : Nat
  kind : Int
  deriving Repr, DecidableEq

def Plane.read (r : Reader) : Option (Plane × Reader) := do
  let (n, r) ← readF3 r
  let (d, r) ← readLE 4 r
  let (k, r) ← readI32 r
  pure (⟨n, d, k⟩, r)

/-- `struct Coord { vec: [f32; 3], offset: f32 }`. -/
structure Coord where
  vec : Nat × Nat × Nat
  offset : Nat
  deriving Repr, DecidableEq

def Coord.read (r : Reader) : Option (Coord × Reader) := do
  let (v, r) ← readF3 r
  let (o, r) ← readLE 4 r
  pure (⟨v, o⟩, r)

/-- `struct TextureInfo { u: Coord, v: Coord, texture_index: u32, flags: u32 }`. -/
structure TextureInfo where
  u : Coord
  v : Coord
  texture_index : Nat
  flags : Nat
  deriving Repr, DecidableEq

def TextureInfo.read (r : Reader) : Option (TextureInfo × Reader) := do
  let (u, r) ← Coord.read r
  let (v, r) ← Coord.read r
  let (ti, r) ← readLE 4 r
  let (fl, r) ← readLE 4 r
  pure (⟨u, v, ti, fl⟩, r)

/-- `struct BoundingBox { min: [f32; 3], max: [f32; 3] }`. -/
structure BoundingBox where
  min : Nat × Nat × Nat
  max : Nat × Nat × Nat
  deriving Repr, DecidableEq

def BoundingBox.read (r : Reader) : Option (BoundingBox × Reader) := do
  let (mn, r) ← readF3 r
  let (mx, r) ← readF3 r
  pure (⟨mn, mx⟩, r)

/-- `struct Model`: bounding box, origin and seven `i32` fields. -/
structure Model where
  bounds : BoundingBox
  origin : Nat × Nat × Nat
  bsp : Int
  clip1 : Int
  clip2 : Int
  node3 : Int
  leaf_count : Int
  face_index_from : Int
  face_count : Int
  deriving Repr, DecidableEq

def Model.read (r : Reader) : Option (Model × Reader) := do
  let (bounds, r) ← BoundingBox.read r
  let (origin, r) ← readF3 r
  let (bsp, r) ← readI32 r
  let (clip1, r) ← readI32 r
  let (clip2, r) ← readI32 r
  let (node3, r) ← readI32 r
  let (leaf_count, r) ← readI32 r
  let (face_index_from, r) ← readI32 r
  let (face_count, r) ← readI32 r
  pure (⟨bounds, origin, bsp, clip1, clip2, node3, leaf_count, face_index_from,
    face_count⟩, r)

/-- Canonical wide edge: `struct Edge { v0: u32, v1: u32 }`. -/
structure Edge where
  v0 : Nat
  v1 : Nat
  deriving Repr, DecidableEq

/-- BSP2 (wide) edge reader: two `u32` vertex indices. -/
def Edge.read (r : Reader) : Option (Edge × Reader) := do
  let (v0, r) ← readLE 4 r
  let (v1, r) ← readLE 4 r
  pure (⟨v0, v1⟩, r)

/-- V29 narrow edge reader (`EdgeV1Reader::from_reader`): two `u16`
vertex indices, zero-extended (`as u32`, value-preserving on `Nat`)
into the canonical `Edge`. -/
def EdgeV1.read (r : Reader) : Option (Edge × Reader) := do
  let (v0, r) ← readLE 2 r
  let (v1, r) ← readLE 2 r
  pure (⟨v0, v1⟩, r)

/-- Canonical wide face: `struct Face` with all-`u32` index fields. -/
structure Face where
  plane_index : Nat
  side : Nat
  edge_list_index : Nat
  edge_count : Nat
  texture_info_index : Nat
  type_light : Nat
  base_light : Nat
  light : Nat × Nat
  lightmap : Nat
  deriving Repr, DecidableEq

/-- BSP2 (wide) face reader: field-by-field little-endian decode of
`Face` (five `u32`, two `u8`, `[u8; 2]`, `u32`). -/
def Face.read (r : Reader) : Option (Face × Reader) := do
  let (plane_index, r) ← readLE 4 r
  let (side, r) ← readLE 4 r
  let (edge_list_index, r) ← readLE 4 r
  let (edge_count, r) ← readLE 4 r
  let (texture_info_index, r) ← readLE 4 r
  let (type_light, r) ← readLE 1 r
  let (base_light, r) ← readLE 1 r
  let (l0, r) ← readLE 1 r
  let (l1, r) ← readLE 1 r
  let (lightmap, r) ← readLE 4 r
  pure (⟨plane_index, side, edge_list_index, edge_count, texture_info_index,
    type_light, base_light, (l0, l1), lightmap⟩, r)

/-- Sequential read of `n` records: the loop body of `ioextra::read_vec`. -/
def readElems (readElem : Reader → Option (α × Reader)) :
    Nat → Reader → Option (List α × Reader)
  | 0, r => some ([], r)
  | n + 1, r => do
    let (x, r) ← readElem r
    let (xs, r) ← readElems readElem n r
    pure (x :: xs, r)

/-- `ioextra::read_vec`: seek to `entry.offset`, compute
`count = entry.size / elemSize` (the record type's `element_count`;
integer division silently drops any remainder bytes) and read `count`
records sequentially. -/
def readVec (elemSize : Nat) (readElem : Reader → Option (α × Reader))
    (r : Reader) (e : Entry) : Option (List α × Reader) :=
  readElems readElem (e.size / elemSize) (seekTo r e.offset)

/-- V29 narrow face reader (`FaceV1Reader::from_reader`): decodes the
narrow `FaceV1` wire shape (`u16` plane index, side, edge count and
texture-info index) and widens every narrow field (`as u32`,
value-preserving on `Nat`) into the canonical `Face`. -/
def FaceV1.read (r : Reader) : Option (Face × Reader) := do
  let (plane_index, r) ← readLE 2 r
  let (side, r) ← readLE 2 r
  let (edge_list_index, r) ← readLE 4 r
  let (edge_count, r) ← readLE 2 r
  let (texture_info_index, r) ← readLE 2 r
  let (type_light, r) ← readLE 1 r
  let (base_light, r) ← readLE 1 r
  let (l0, r) ← readLE 1 r
  let (l1, r) ← readLE 1 r
  let (lightmap, r) ← readLE 4 r
  pure (⟨plane_index, side, edge_list_index, edge_count, texture_info_index,
    type_light, base_light, (l0, l1), lightmap⟩, r)

/-! ## Entity text mini-language (`parse_entities`) -/

/-- The characters `{`, `}` and `"` (written via code points to keep
them out of character-literal position). -/
def lbrace : Char := Char.ofNat 123

def rbrace : Char := Char.ofNat 125

def qchar : Char := Char.ofNat 34

/-- Modelled from the spec: `quake_text::bytestr::to_unicode`, the
external lossy byte-to-text conversion used on the entity section; it is
total (invalid sequences become placeholder characters, never an error).
Modelled as a per-byte character mapping. -/
def toUnicode (bytes : List Nat) : List Char :=
  bytes.map fun b => Char.ofNat (b % 256)

/-- Whitespace predicate of `str::trim` (ASCII portion). -/
def isWs (c : Char) : Bool :=
  c = ' ' ∨ c = '\t' ∨ c = '\n' ∨ c = '\r'

/-- `str::trim`: drop leading and trailing whitespace. -/
def trim (l : List Char) : List Char :=
  ((l.dropWhile isWs).reverse.dropWhile isWs).reverse

/-- `str::trim_matches(c)`: drop every leading and trailing occurrence of `c`. -/
def trimMatches (c : Char) (l : List Char) : List Char :=
  ((l.dropWhile (· = c)).reverse.dropWhile (· = c)).reverse

/-- `str::split_once("\x22 \x22")`: split at the first occurrence of the
three-character separator quote-space-quote, returning the pieces before
and after it; `none` when the separator does not occur. -/
def splitOnceQQ : List Char → Option (List Char × List Char)
  | [] => none
  | c :: rest =>
    if c = qchar ∧ rest.take 2 = [' ', qchar] then some ([], rest.drop 2)
    else (splitOnceQQ rest).map fun p => (c :: p.1, p.2)

/-- Split on `\n`, keeping a (possibly empty) final segment. -/
def splitNl : List Char → List (List Char)
  | [] => [[]]
  | c :: cs =>
    if c = '\n' then [] :: splitNl cs
    else
      match splitNl cs with
      | [] => [[c]]
      | s :: ss => (c :: s) :: ss

/-- Drop one trailing carriage return (`\r\n` line endings). -/
def stripCr (l : List Char) : List Char :=
  if l.getLast? = some '\r' then l.dropLast else l

/-- `str::lines`: split at `\n` / `\r\n`; the final line ending is
optional and a trailing empty segment is not yielded. -/
def linesOf (text : List Char) : List (List Char) :=
  let segs := splitNl text
  let main := (segs.dropLast).map stripCr
  match segs.getLast? with
  | none => []
  | some l => if l = [] then main else main ++ [l]

/-- One decoded entity: a string-keyed mapping, modelled as an
association list (`HashMap<String, String>` with insert-replaces-value
semantics; iteration order of a `HashMap` is unspecified, so claims are
stated via lookup). -/
abbrev EMap := List (List Char × List Char)

/-- `HashMap::insert`: replace the value of an existing key, else append
the new pair. -/
def emapInsert (m : EMap) (k v : List Char) : EMap :=
  if m.any fun p => p.1 = k then
    m.map fun p => if p.1 = k then (k, v) else p
  else
    m ++ [(k, v)]

/-- One iteration of `parse_entities`' line loop, on the state
(current mapping, finished entities).  A `{` line resets the current
mapping, a `}` line appends a copy of it to the output, and any other
line is quote-trimmed and split once on quote-space-quote, the failure
default being the empty key/value pair, which is inserted. -/
def entStep (st : EMap × List EMap) (line : List Char) : EMap × List EMap :=
  let l := trim line
  if l = [lbrace] then ([], st.2)
  else if l = [rbrace] then (st.1, st.2 ++ [st.1])
  else
    let t := trimMatches qchar l
    let (k, v) := (splitOnceQQ t).getD ([], [])
    (emapInsert st.1 k v, st.2)

/-- `parse_entities` on already-decoded text: fold the line loop over
`str::lines` of the text.  It is total (the Rust function always
returns `Ok`). -/
def parseEntities (text : List Char) : List EMap :=
  ((linesOf text).foldl entStep ([], [])).2

/-! ## Texture directory (`parse_textures`) and texture names -/

/-- `struct Texture`: null-terminated name padded to 16 bytes, `i32`
width and height, and four `u32` mipmap offsets. -/
structure Texture where
  name : List Nat
  width : Int
  height : Int
  offset1 : Nat
  offset2 : Nat
  offset4 : Nat
  offset8 : Nat
  deriving Repr, DecidableEq

/-- binrw `NullString` with `pad_size_to = 16`: the bytes before the
first NUL (failing at end-of-stream when no NUL follows), after which
the cursor sits 16 bytes past the field start. -/
def readNullStr16 (r : Reader) : Option (List Nat × Reader) :=
  match (r.data.drop r.pos).findIdx? (· = 0) with
  | none => none
  | some k => some ((r.data.drop r.pos).take k, { r with pos := r.pos + 16 })

def Texture.read (r : Reader) : Option (Texture × Reader) := do
  let (name, r) ← readNullStr16 r
  let (width, r) ← readI32 r
  let (height, r) ← readI32 r
  let (o1, r) ← readLE 4 r
  let (o2, r) ← readLE 4 r
  let (o4, r) ← readLE 4 r
  let (o8, r) ← readLE 4 r
  pure (⟨name, width, height, o1, o2, o4, o8⟩, r)

/-- Read one directory slot's texture: seek to
`base + rel` (the slot's positive relative offset), read the `Texture`
record and convert its four mipmap offsets to absolute positions by
`u32` wrapping addition of the absolute base. -/
def readTexAt (data : List Nat) (base : Nat) (rel : Int) : Option Texture := do
  let abs := base + rel.toNat
  let (t, _) ← Texture.read (seekTo ⟨data, 0⟩ abs)
  pure { t with
    offset1 := (t.offset1 + abs) % 2 ^ 32
    offset2 := (t.offset2 + abs) % 2 ^ 32
    offset4 := (t.offset4 + abs) % 2 ^ 32
    offset8 := (t.offset8 + abs) % 2 ^ 32 }

/-- The slot loop of `parse_textures`: a slot whose relative offset is
`≤ 0` is skipped (`continue`), any other slot's texture is decoded at
its absolute position; a failed read aborts the loop. -/
def texLoop (data : List Nat) (base : Nat) : List Int → Option (List Texture)
  | [] => some []
  | rel :: rest =>
    if rel ≤ 0 then texLoop data base rest
    else do
      let t ← readTexAt data base rel
      let ts ← texLoop data base rest
      pure (t :: ts)

/-- `parse_textures`: seek to the section base, read the
`TextureHeader` (an `i32` count followed by that many `i32` relative
offsets) and run the slot loop. -/
def parse_textures (data : List Nat) (base : Nat) : Option (List Texture) := do
  let r := seekTo ⟨data, 0⟩ base
  let (cnt, r) ← readI32 r
  if cnt < 0 then none
  else do
    let (offsets, _) ← readElems readI32 cnt.toNat r
    texLoop data base offsets

/-- A UTF-8 continuation byte (`0x80..=0xBF`). -/
def utf8Cont (b : Nat) : Bool :=
  0x80 ≤ b ∧ b ≤ 0xBF

/-- UTF-8 validity of a byte sequence — the acceptance condition of
Rust's `str::from_utf8` (the standard UTF-8 shortest-form ranges,
excluding surrogates). -/
def utf8Valid : List Nat → Bool
  | [] => true
  | b :: rest =>
    if b < 0x80 then utf8Valid rest
    else if 0xC2 ≤ b ∧ b ≤ 0xDF then
      match rest with
      | c1 :: r => utf8Cont c1 && utf8Valid r
      | [] => false
    else if b = 0xE0 then
      match rest with
      | c1 :: c2 :: r => (0xA0 ≤ c1 ∧ c1 ≤ 0xBF : Bool) && utf8Cont c2 && utf8Valid r
      | _ => false
    else if (0xE1 ≤ b ∧ b ≤ 0xEC) ∨ (0xEE ≤ b ∧ b ≤ 0xEF) then
      match rest with
      | c1 :: c2 :: r => utf8Cont c1 && utf8Cont c2 && utf8Valid r
      | _ => false
    else if b = 0xED then
      match rest with
      | c1 :: c2 :: r => (0x80 ≤ c1 ∧ c1 ≤ 0x9F : Bool) && utf8Cont c2 && utf8Valid r
      | _ => false
    else if b = 0xF0 then
      match rest with
      | c1 :: c2 :: c3 :: r =>
        (0x90 ≤ c1 ∧ c1 ≤ 0xBF : Bool) && utf8Cont c2 && utf8Cont c3 && utf8Valid r
      | _ => false
    else if 0xF1 ≤ b ∧ b ≤ 0xF3 then
      match rest with
      | c1 :: c2 :: c3 :: r => utf8Cont c1 && utf8Cont c2 && utf8Cont c3 && utf8Valid r
      | _ => false
    else if b = 0xF4 then
      match rest with
      | c1 :: c2 :: c3 :: r =>
        (0x80 ≤ c1 ∧ c1 ≤ 0x8F : Bool) && utf8Cont c2 && utf8Cont c3 && utf8Valid r
      | _ => false
    else false

/-- The name bytes of a C string buffer: everything before the first
NUL, or the whole buffer when no NUL occurs. -/
def cstrPre (data : List Nat) : List Nat :=
  data.take ((data.findIdx? (· = 0)).getD data.length)

/-- `parse::from_cstring`: truncate at the first NUL and validate the
remaining bytes as UTF-8 (`str::from_utf8`), failing on invalid text;
the decoded name is returned as its byte sequence. -/
def from_cstring (data : List Nat) : Option (List Nat) :=
  if utf8Valid (cstrPre data) then some (cstrPre data) else none

/-- Error taxonomy of the decoding engine (§7 of the spec):
`unsupportedVersion` models the `anyhow` error of
`BspVersion::try_from`, `truncated` any I/O / binrw end-of-stream
failure, and `invalidText` the `Utf8Error` of `from_cstring`. -/
inductive PError where
  | unsupportedVersion
  | truncated
  | invalidText
  deriving Repr, DecidableEq

/-- Texture-name decoding of the strict pipeline
(`bsp.rs`: `from_cstring(&read_string!(r, 16))?`): read exactly 16 name
bytes, then validate them as text, raising `invalidText` on failure. -/
def texName (r : Reader) : Except PError (List Nat × Reader) :=
  match readBytes r 16 with
  | none => .error .truncated
  | some (bs, r') =>
    match from_cstring bs with
    | none => .error .invalidText
    | some n => .ok (n, r')

/-! ## Version dispatch and `BspFile::parse` -/

/-- `enum BspVersion { V29, BSP2 }`. -/
inductive BspVersion where
  | V29
  | BSP2
  deriving Repr, DecidableEq

/-- `BspVersion::try_from([u8; 4])`: `[29,0,0,0]` is V29, ASCII
`BSP2` (`[66,83,80,50]`) is BSP2, anything else is the
"Unsupported BSP version" error (`none`). -/
def BspVersion.tryFrom (bytes : List Nat) : Option BspVersion :=
  if bytes = [29, 0, 0, 0] then some .V29
  else if bytes = [66, 83, 80, 50] then some .BSP2
  else none

/-- The decoded aggregate `struct BspFile`. -/
structure BspFile where
  version : BspVersion
  header : BspHeader
  edge_list : List Int
  edges : List Edge
  entities : List EMap
  faces : List Face
  lightmaps : List Nat
  models : List Model
  planes : List Plane
  texture_info : List TextureInfo
  textures : List Texture
  vertices : List Vertex
  deriving Repr, DecidableEq

/-- Lift an optional result into the parse error monad. -/
def toE (e : PError) : Option α → Except PError α
  | none => .error e
  | some a => .ok a

/-- `BspFile::parse` after the version tag: read the directory header,
decode each section with `read_vec` (entities, planes, textures,
texture-info, vertices, lightmaps, edge-list, models, in source order),
then decode faces and edges with the narrow (V29) or wide (BSP2)
readers.  Record wire sizes (`size_of`): Plane 20, TextureInfo 40,
Vertex 12, Model 64, FaceV1 20 / Face 28, EdgeV1 4 / Edge 8. -/
def parseRest (version : BspVersion) (r : Reader) : Except PError BspFile := do
  let (h, r) ← toE .truncated (BspHeader.read r)
  let (entBytes, r) ← toE .truncated (readVec 1 (readLE 1) r h.entities)
  let entities := parseEntities (toUnicode entBytes)
  let (planes, r) ← toE .truncated (readVec 20 Plane.read r h.planes)
  let textures ← toE .truncated (parse_textures r.data h.textures.offset)
  let (texture_info, r) ← toE .truncated (readVec 40 TextureInfo.read r h.texture_info)
  let (vertices, r) ← toE .truncated (readVec 12 Vertex.read r h.vertices)
  let (lightmaps, r) ← toE .truncated (readVec 1 (readLE 1) r h.lightmaps)
  let (edge_list, r) ← toE .truncated (readVec 4 readI32 r h.edge_list)
  let (models, r) ← toE .truncated (readVec 64 Model.read r h.models)
  let fe ← match version with
    | .V29 => do
      let (faces, r') ← toE .truncated (readVec 20 FaceV1.read r h.faces)
      let (edges, _) ← toE .truncated (readVec 4 EdgeV1.read r' h.edges)
      pure (faces, edges)
    | .BSP2 => do
      let (faces, r') ← toE .truncated (readVec 28 Face.read r h.faces)
      let (edges, _) ← toE .truncated (readVec 8 Edge.read r' h.edges)
      pure (faces, edges)
  pure ⟨version, h, edge_list, fe.2, entities, fe.1, lightmaps, models, planes,
    texture_info, textures, vertices⟩

/-- `BspFile::parse`: read the 4 magic bytes, resolve the version
(failing with `UnsupportedVersion` before any directory read), then
decode the rest of the file. -/
def BspFile.parse (data : List Nat) : Except PError BspFile := do
  let r : Reader := ⟨data, 0⟩
  let (vb, r) ← toE .truncated (readBytes r 4)
  let version ← toE .unsupportedVersion (BspVersion.tryFrom vb)
  parseRest version r

/-! ## Cross-reference helpers (`helpers.rs`) -/

/-- `get_face_texture_info`: resolve the face's texture-info by stored
index, failing with the out-of-bounds error when the index is beyond
the `texture_info` array. -/
def get_face_texture_info (bsp : BspFile) (face : Face) : Except String TextureInfo :=
  match bsp.texture_info.get? face.texture_info_index with
  | none => .error "Texture info index out of bounds"
  | some info => .ok info

/-- `get_face_texture`: resolve the face's texture via its
texture-info's texture index, propagating or raising the out-of-bounds
errors. -/
def get_face_texture (bsp : BspFile) (face : Face) : Except String Texture :=
  match get_face_texture_info bsp face with
  | .error msg => .error msg
  | .ok info =>
    match bsp.textures.get? info.texture_index with
    | none => .error "Texture index out of bounds"
    | some t => .ok t

/-- Resolve one signed edge-list entry: a nonnegative entry `e` selects
`edges[e].v0`, a negative one selects `edges[-e].v1`; `none` models the
vector-indexing panic when the edge index is out of bounds. -/
def resolveEdge (edges : List Edge) (e : Int) : Option Nat :=
  if 0 ≤ e then (edges.get? e.toNat).map Edge.v0
  else (edges.get? (-e).toNat).map Edge.v1

/-- The mapping loop of `get_face_vertice_indexes` over the selected
edge-list entries. -/
def resolveEdges (edges : List Edge) : List Int → Option (List Nat)
  | [] => some []
  | e :: rest => do
    let v ← resolveEdge edges e
    let vs ← resolveEdges edges rest
    pure (v :: vs)

/-- `get_face_vertice_indexes`: iterate the face's edge-list range
(`.skip(edge_list_index).take(edge_count)`) and resolve each signed
entry.  The Rust function returns a plain `Vec<u32>` with no error
value; `none` models its indexing panic. -/
def get_face_vertice_indexes (bsp : BspFile) (face : Face) : Option (List Nat) :=
  resolveEdges bsp.edges
    ((bsp.edge_list.drop face.edge_list_index).take face.edge_count)

/-- `get_face_vertices`: map the resolved vertex indices through the
vertex array; `none` models the indexing panic on an out-of-bounds
vertex index. -/
def get_face_vertices (bsp : BspFile) (face : Face) : Option (List Vertex) := do
  let idxs <- get_face_vertice_indexes bsp face
  idxs.mapM fun i => bsp.vertices.get? i

/-! ## Mipmap image extraction (`read_texture_image`) -/

/-- A record reader consumes exactly `s` bytes and succeeds whenever `s`
bytes are available: the shape shared by every fixed-size record reader
of the crate. -/
def ConsumesExactly (s : Nat) (readElem : Reader → Option (α × Reader)) : Prop :=
  ∀ rd : Reader, rd.pos + s ≤ rd.data.length →
    ∃ x, readElem rd = some (x, ⟨rd.data, rd.pos + s⟩)

theorem readElems_length {α : Type} (s : Nat) (readElem : Reader → Option (α × Reader))
    (hre : ConsumesExactly s readElem) (n : Nat) :
    ∀ rd : Reader, rd.pos + n * s ≤ rd.data.length →
      ∃ xs, readElems readElem n rd = some (xs, ⟨rd.data, rd.pos + n * s⟩) ∧
        xs.length = n := by
  induction n with
  | zero =>
    intro rd _
    exact ⟨[], by simp [readElems], rfl⟩
  | succ n ih =>
    intro rd hle
    obtain ⟨x, hx⟩ := hre rd (by nlinarith [Nat.le_of_lt_succ (Nat.lt_succ_of_le hle)])
    obtain ⟨xs, hxs, hlen⟩ := ih ⟨rd.data, rd.pos + s⟩ (by simp; nlinarith)
    refine ⟨x :: xs, ?_, by simp [hlen]⟩
    simp only [readElems, hx, Option.bind_eq_bind, Option.some_bind, hxs]
    have : rd.pos + s + n * s = rd.pos + (n + 1) * s := by ring
    simp [this]

/-- Every `readLE w` (with `0 < w`) consumes exactly `w` bytes. -/
theorem readLE_consumes (w : Nat) : ConsumesExactly w (readLE w) := by
  intro rd hle
  refine ⟨leVal ((rd.data.drop rd.pos).take w), ?_⟩
  simp [readLE, readBytes, hle]

/-- Claim C2: section record count.  For a directory entry of
`byteLength = n * s + rem` with `rem < s` (covering both the exact
multiple `rem = 0` and a nonzero remainder), and any record reader of
wire size `s` that succeeds on available input, `read_vec` decodes
exactly `n` records — remainder bytes are silently dropped and no error
is raised. -/
theorem read_vec_record_count {α : Type} (s : Nat) (hs : 0 < s)
    (readElem : Reader → Option (α × Reader)) (hre : ConsumesExactly s readElem)
    (n rem : Nat) (hrem : rem < s) (e : Entry) (hsize : e.size = n * s + rem)
    (data : List Nat) (pos0 : Nat) (hdata : e.offset + n * s ≤ data.length) :
    ∃ xs, readVec s readElem ⟨data, pos0⟩ e = some (xs, ⟨data, e.offset + n * s⟩) ∧
      xs.length = n := by
  have hcount : e.size / s = n := by
    rw [hsize, Nat.mul_comm n s, Nat.mul_add_div hs, Nat.div_eq_of_lt hrem]
    omega
  unfold readVec seekTo
  rw [hcount]
  exact readElems_length s readElem hre n ⟨data, e.offset⟩ hdata

/-- Witness for C2: five bytes holding two 2-byte records plus one
remainder byte decode to exactly two records. -/
theorem read_vec_record_count_witness :
    ∃ xs : List Nat,
      readVec 2 (readLE 2) ⟨[1, 0, 2, 0, 99], 7⟩ ⟨0, 5⟩ = some (xs, ⟨[1, 0, 2, 0, 99], 4⟩) ∧
      xs.length = 2 :=
  read_vec_record_count 2 (by decide) (readLE 2) (readLE_consumes 2)
    2 1 (by decide) ⟨0, 5⟩ rfl [1, 0, 2, 0, 99] 7 (by decide)

/-! ## Version dispatch (C1) -/

theorem except_bind_ok {α β : Type} {x : Except PError α} {f : α → Except PError β}
    {b : β} (h : x >>= f = .ok b) : ∃ a, x = .ok a ∧ f a = .ok b := by
  cases x with
  | error e => simp [Bind.bind, Except.bind] at h
  | ok a => exact ⟨a, rfl, h⟩

theorem toE_ok {α : Type} {e : PError} {x : Option α} {a : α}
    (h : toE e x = .ok a) : x = some a := by
  cases x with
  | none => simp [toE] at h
  | some b =>
    simp [toE] at h
    rw [h]

/-- A successful `parseRest` carries the version it was given. -/
theorem parseRest_version (v : BspVersion) (r : Reader) (bsp : BspFile)
    (h : parseRest v r = .ok bsp) : bsp.version = v := by
  cases v <;>
  · unfold parseRest at h
    obtain ⟨⟨h1, r1⟩, -, h⟩ := except_bind_ok h
    obtain ⟨⟨a2, r2⟩, -, h⟩ := except_bind_ok h
    obtain ⟨⟨a3, r3⟩, -, h⟩ := except_bind_ok h
    obtain ⟨a4, -, h⟩ := except_bind_ok h
    obtain ⟨⟨a5, r5⟩, -, h⟩ := except_bind_ok h
    obtain ⟨⟨a6, r6⟩, -, h⟩ := except_bind_ok h
    obtain ⟨⟨a7, r7⟩, -, h⟩ := except_bind_ok h
    obtain ⟨⟨a8, r8⟩, -, h⟩ := except_bind_ok h
    obtain ⟨⟨a9, r9⟩, -, h⟩ := except_bind_ok h
    obtain ⟨⟨fs, rf⟩, -, h⟩ := except_bind_ok h
    obtain ⟨⟨es, re⟩, -, h⟩ := except_bind_ok h
    simp only [pure, Except.pure, bind, Except.bind, Except.ok.injEq] at h
    rw [← h]

/-- Claim C1: version dispatch of `BspFile::parse`.  A successful parse
of an input beginning with `[29,0,0,0]` resolves to `V29` and one
beginning with ASCII `BSP2` resolves to `BSP2`; an input with any other
4-byte prefix fails with `UnsupportedVersion` no matter what follows
the prefix — in particular before any directory entry is read. -/
theorem parse_version_dispatch :
    (∀ data bsp, BspFile.parse data = .ok bsp →
      (data.take 4 = [29, 0, 0, 0] → bsp.version = .V29) ∧
      (data.take 4 = [66, 83, 80, 50] → bsp.version = .BSP2)) ∧
    (∀ b0 b1 b2 b3 : Nat, ∀ rest : List Nat,
      [b0, b1, b2, b3] ≠ [29, 0, 0, 0] → [b0, b1, b2, b3] ≠ [66, 83, 80, 50] →
      BspFile.parse (b0 :: b1 :: b2 :: b3 :: rest) = .error .unsupportedVersion) := by
  constructor
  · intro data bsp h
    unfold BspFile.parse at h
    obtain ⟨⟨vb, r⟩, hvb, h⟩ := except_bind_ok h
    obtain ⟨version, hv, h⟩ := except_bind_ok h
    have hver := parseRest_version version r bsp h
    have hvb4 : vb = data.take 4 := by
      have hrb := toE_ok hvb
      unfold readBytes at hrb
      split at hrb
      · simp at hrb
        exact hrb.1.symm
      · simp at hrb
    constructor
    · intro h29
      rw [hver]
      unfold toE BspVersion.tryFrom at hv
      rw [hvb4, h29] at hv
      simp at hv
      exact hv.symm
    · intro hb2
      rw [hver]
      unfold toE BspVersion.tryFrom at hv
      rw [hvb4, hb2] at hv
      simp at hv
      exact hv.symm
  · intro b0 b1 b2 b3 rest hn1 hn2
    unfold BspFile.parse
    have hrb : readBytes ⟨b0 :: b1 :: b2 :: b3 :: rest, 0⟩ 4 =
        some ([b0, b1, b2, b3], ⟨b0 :: b1 :: b2 :: b3 :: rest, 4⟩) := by
      unfold readBytes
      simp
    simp only [bind, Except.bind, toE, hrb, BspVersion.tryFrom, if_neg hn1, if_neg hn2]

/-- Witness for C1: a file with magic `[1,2,3,4]` is rejected with
`UnsupportedVersion`, and the two magics parse to their versions on
minimal valid files. -/
theorem parse_version_dispatch_witness :
    BspFile.parse [1, 2, 3, 4, 9, 9] = .error .unsupportedVersion :=
  parse_version_dispatch.2 1 2 3 4 [9, 9] (by decide) (by decide)

/-! ## Cross-reference helper claims (C3, C5, C10) -/

theorem resolveEdges_none (edges : List Edge) (l : List Int) (e : Int)
    (he : e ∈ l) (hn : resolveEdge edges e = none) :
    resolveEdges edges l = none := by
  induction l with
  | nil => cases he
  | cons a l ih =>
    rcases List.mem_cons.mp he with rfl | hmem
    · simp [resolveEdges, hn]
    · simp only [resolveEdges, Option.bind_eq_bind, ih hmem]
      cases resolveEdge edges a <;> simp

theorem resolveEdges_some (edges : List Edge) (l : List Int)
    (h : ∀ e ∈ l, resolveEdge edges e ≠ none) :
    ∃ out, resolveEdges edges l = some out ∧ out.length = l.length := by
  induction l with
  | nil => exact ⟨[], rfl, rfl⟩
  | cons a l ih =>
    obtain ⟨out, hout, hlen⟩ := ih fun e he => h e (List.mem_cons_of_mem a he)
    cases hv : resolveEdge edges a with
    | none => exact absurd hv (h a (List.mem_cons_self a l))
    | some v =>
      refine ⟨v :: out, ?_, by simp [hlen]⟩
      simp [resolveEdges, hv, hout]

theorem resolveEdges_index (edges : List Edge) (l : List Int) (out : List Nat)
    (h : resolveEdges edges l = some out) :
    out.length = l.length ∧
    ∀ j e, l.get? j = some e → ∃ v, out.get? j = some v ∧ resolveEdge edges e = some v := by
  induction l generalizing out with
  | nil =>
    simp [resolveEdges] at h
    subst h
    simp
  | cons a l ih =>
    simp only [resolveEdges, Option.bind_eq_bind] at h
    cases hv : resolveEdge edges a with
    | none => rw [hv] at h; simp at h
    | some v =>
      rw [hv] at h
      cases hrest : resolveEdges edges l with
      | none => rw [hrest] at h; simp at h
      | some vs =>
        rw [hrest] at h
        simp only [Option.some_bind, Option.pure_def, Option.some.injEq] at h
        obtain ⟨hl, hget⟩ := ih vs hrest
        subst h
        refine ⟨by simp [hl], ?_⟩
        intro j e hj
        cases j with
        | zero =>
          simp at hj
          subst hj
          exact ⟨v, rfl, hv⟩
        | succ j =>
          simp only [List.get?_cons_succ] at hj ⊢
          exact hget j e hj

/-- An all-zero directory entry and header, for concrete aggregates. -/
def zeroEntry : Entry := ⟨0, 0⟩

def zeroHeader : BspHeader :=
  ⟨zeroEntry, zeroEntry, zeroEntry, zeroEntry, zeroEntry, zeroEntry, zeroEntry,
    zeroEntry, zeroEntry, zeroEntry, zeroEntry, zeroEntry, zeroEntry, zeroEntry, zeroEntry⟩

/-- A decoded aggregate with every section empty. -/
def emptyBsp : BspFile :=
  ⟨.V29, zeroHeader, [], [], [], [], [], [], [], [], [], []⟩

/-- A face whose only nonzero fields are the edge-list range and the
texture-info index. -/
def mkFace (eli ec ti : Nat) : Face :=
  ⟨0, 0, eli, ec, ti, 0, 0, (0, 0), 0⟩

/-- A zero texture-info record (texture index 0). -/
def defInfo : TextureInfo :=
  ⟨⟨(0, 0, 0), 0⟩, ⟨(0, 0, 0), 0⟩, 0, 0⟩

/-- Counterexample to claim C3.  The claim says every cross-reference
helper returns an `IndexOutOfBounds` error value rather than crashing;
but `get_face_vertice_indexes` and `get_face_vertices` return a plain
`Vec<u32>` / `Vec<Vertex>` and index the `edges` / `vertices` arrays
directly, so an out-of-bounds stored index panics (modelled `none`):
here the edge list stores index 5 while the edge array is empty. -/
theorem helpers_oob_counterexample :
    get_face_vertice_indexes { emptyBsp with edge_list := [5] } (mkFace 0 1 0) = none ∧
    get_face_vertices { emptyBsp with edge_list := [5] } (mkFace 0 1 0) = none :=
  ⟨rfl, rfl⟩

/-- Claim C3 as amended: `get_face_texture_info` and `get_face_texture`
return an out-of-bounds error value when the stored index is beyond the
target array (and, being pure, leave the aggregate untouched), while
`get_face_vertice_indexes` (and through it `get_face_vertices`) panics
— modelled `none` — when a stored edge index is out of bounds. -/
theorem helpers_oob_amended :
    (∀ (bsp : BspFile) (face : Face),
      bsp.texture_info.length ≤ face.texture_info_index →
      get_face_texture_info bsp face = .error "Texture info index out of bounds") ∧
    (∀ (bsp : BspFile) (face : Face) (info : TextureInfo),
      get_face_texture_info bsp face = .ok info →
      bsp.textures.length ≤ info.texture_index →
      get_face_texture bsp face = .error "Texture index out of bounds") ∧
    (∀ (bsp : BspFile) (face : Face) (e : Int),
      e ∈ (bsp.edge_list.drop face.edge_list_index).take face.edge_count →
      resolveEdge bsp.edges e = none →
      get_face_vertice_indexes bsp face = none) := by
  refine ⟨?_, ?_, ?_⟩
  · intro bsp face h
    unfold get_face_texture_info
    rw [List.get?_eq_none.mpr h]
  · intro bsp face info hok h
    unfold get_face_texture
    rw [hok]
    show (match bsp.textures.get? info.texture_index with
      | none => Except.error "Texture index out of bounds"
      | some t => Except.ok t) = Except.error "Texture index out of bounds"
    rw [List.get?_eq_none.mpr h]
  · intro bsp face e he hn
    unfold get_face_vertice_indexes
    exact resolveEdges_none bsp.edges _ e he hn

/-- Witness for the amended C3: concrete out-of-bounds lookups hit each
of the three behaviours. -/
theorem helpers_oob_amended_witness :
    get_face_texture_info emptyBsp (mkFace 0 0 0) =
      .error "Texture info index out of bounds" ∧
    get_face_texture { emptyBsp with texture_info := [defInfo] } (mkFace 0 0 0) =
      .error "Texture index out of bounds" ∧
    get_face_vertice_indexes { emptyBsp with edge_list := [7] } (mkFace 0 1 0) = none :=
  ⟨helpers_oob_amended.1 emptyBsp (mkFace 0 0 0) (by decide),
   helpers_oob_amended.2.1 { emptyBsp with texture_info := [defInfo] } (mkFace 0 0 0)
     defInfo rfl (by decide),
   helpers_oob_amended.2.2 { emptyBsp with edge_list := [7] } (mkFace 0 1 0)
     7 (by decide) (by decide)⟩

/-- Claim C5: edge-list sign convention.  For every decoded vertex-index
list, entry `j` resolves the `j`-th signed edge-list entry of the face's
range: a nonnegative entry `e` yields `edges[e].v0` and a negative one
yields `edges[-e].v1`, in range order. -/
theorem edge_sign_convention (bsp : BspFile) (face : Face) (out : List Nat)
    (h : get_face_vertice_indexes bsp face = some out) :
    out.length = ((bsp.edge_list.drop face.edge_list_index).take face.edge_count).length ∧
    ∀ j e, ((bsp.edge_list.drop face.edge_list_index).take face.edge_count).get? j = some e →
      (0 ≤ e → ∃ ed, bsp.edges.get? e.toNat = some ed ∧ out.get? j = some ed.v0) ∧
      (e < 0 → ∃ ed, bsp.edges.get? (-e).toNat = some ed ∧ out.get? j = some ed.v1) := by
  unfold get_face_vertice_indexes at h
  obtain ⟨hlen, hidx⟩ := resolveEdges_index bsp.edges _ out h
  refine ⟨hlen, ?_⟩
  intro j e hj
  obtain ⟨v, hv, hres⟩ := hidx j e hj
  constructor
  · intro hpos
    unfold resolveEdge at hres
    rw [if_pos hpos] at hres
    cases hed : bsp.edges.get? e.toNat with
    | none => rw [hed] at hres; simp at hres
    | some ed =>
      rw [hed] at hres
      simp at hres
      exact ⟨ed, rfl, by rw [hv, hres]⟩
  · intro hneg
    unfold resolveEdge at hres
    rw [if_neg (by omega)] at hres
    cases hed : bsp.edges.get? (-e).toNat with
    | none => rw [hed] at hres; simp at hres
    | some ed =>
      rw [hed] at hres
      simp at hres
      exact ⟨ed, rfl, by rw [hv, hres]⟩

/-- A concrete aggregate with two edges and the edge list `[1, -1]`. -/
def wBsp : BspFile :=
  { emptyBsp with edges := [⟨10, 20⟩, ⟨30, 40⟩], edge_list := [1, -1] }

/-- Witness for C5: on `wBsp`, entry `0` (edge-list value `+1`) resolves
to edge 1's `v0` and entry `1` (value `-1`) to edge 1's `v1`. -/
theorem edge_sign_convention_witness :
    (∃ ed, wBsp.edges.get? (1 : Int).toNat = some ed ∧
      ([30, 40] : List Nat).get? 0 = some ed.v0) ∧
    (∃ ed, wBsp.edges.get? (-(-1 : Int)).toNat = some ed ∧
      ([30, 40] : List Nat).get? 1 = some ed.v1) :=
  ⟨((edge_sign_convention wBsp (mkFace 0 2 0) [30, 40] rfl).2 0 1 rfl).1 (by decide),
   ((edge_sign_convention wBsp (mkFace 0 2 0) [30, 40] rfl).2 1 (-1) rfl).2 (by decide)⟩

/-- Claim C10: silent truncation of an overlong face edge range.  When
every entry of the (possibly truncated) range resolves in bounds,
`get_face_vertice_indexes` succeeds and returns exactly
`min edge_count (edge_list.length - edge_list_index)` entries — no
error is raised when `edge_list_index + edge_count` exceeds the
edge-list length, the result is merely shorter than `edge_count`
(truncated-subtraction renders the claim's `max 0 _`). -/
theorem edge_range_truncation (bsp : BspFile) (face : Face)
    (h : ∀ e ∈ (bsp.edge_list.drop face.edge_list_index).take face.edge_count,
      resolveEdge bsp.edges e ≠ none) :
    ∃ out, get_face_vertice_indexes bsp face = some out ∧
      out.length = min face.edge_count (bsp.edge_list.length - face.edge_list_index) := by
  obtain ⟨out, hout, hlen⟩ := resolveEdges_some bsp.edges _ h
  refine ⟨out, hout, ?_⟩
  rw [hlen]
  simp [List.length_take, List.length_drop]

/-- Witness for C10: a face asking for 5 edge-list entries of `wBsp`
(which has only 2) gets exactly `min 5 2 = 2` resolved entries. -/
theorem edge_range_truncation_witness :
    ∃ out, get_face_vertice_indexes wBsp (mkFace 0 5 0) = some out ∧
      out.length = min (mkFace 0 5 0).edge_count
        (wBsp.edge_list.length - (mkFace 0 5 0).edge_list_index) :=
  edge_range_truncation wBsp (mkFace 0 5 0) (by decide)

/-! ## Entity parser malformed lines (C4) -/

/-- Entity text whose single field line `foo` is malformed (no
quote-space-quote separator). -/
def malformedText : List Char := [lbrace, '\n', 'f', 'o', 'o', '\n', rbrace]

/-- Counterexample to claim C4.  The claim says a malformed line is
ignored, leaving the current mapping unchanged; but
`line.trim_matches .. .split_once .. .unwrap_or_default()` defaults the
failed split to the pair of empty strings, which is then inserted: the
block gets the spurious binding of the empty key to the empty value
instead of staying empty. -/
theorem entity_malformed_counterexample :
    parseEntities malformedText = [[([], [])]] ∧
    parseEntities malformedText ≠ [[]] := by
  constructor
  · rfl
  · decide

/-- Claim C4 as amended: a line whose trimmed form is neither brace and
admits no quote-space-quote split does not abort the parse
(`parseEntities` is total, the Rust function always returns `Ok`), but
it is not ignored: the empty-key/empty-value pair is inserted into the
current mapping. -/
theorem entity_malformed_inserts_default :
    ∀ (st : EMap × List EMap) (line : List Char),
      trim line ≠ [lbrace] → trim line ≠ [rbrace] →
      splitOnceQQ (trimMatches qchar (trim line)) = none →
      entStep st line = (emapInsert st.1 [] [], st.2) := by
  intro st line h1 h2 h3
  unfold entStep
  rw [if_neg h1, if_neg h2]
  simp [h3]

/-- Witness for the amended C4: processing the malformed line `foo`
against an empty state inserts the empty pair. -/
theorem entity_malformed_inserts_default_witness :
    entStep ([], []) ['f', 'o', 'o'] = (emapInsert [] [] [], []) :=
  entity_malformed_inserts_default ([], []) ['f', 'o', 'o']
    (by decide) (by decide) (by decide)

/-! ## Texture name strictness (C6) -/

/-- Claim C6: texture-name decoding is strict, entity-text decoding is
lossy.  Whenever the 16 texture-name bytes are read and their
pre-NUL content is not valid UTF-8, the strict name decoder
(`from_cstring` applied to the 16-byte name field) fails with
`InvalidText`; entity-text decoding (`to_unicode`) is total — it yields
one character per byte for every byte sequence and can never raise
`InvalidText`. -/
theorem texture_name_strictness :
    (∀ (r r' : Reader) (bs : List Nat), readBytes r 16 = some (bs, r') →
      utf8Valid (cstrPre bs) = false → texName r = .error .invalidText) ∧
    (∀ bytes : List Nat, (toUnicode bytes).length = bytes.length) := by
  constructor
  · intro r r' bs hread hbad
    unfold texName
    rw [hread]
    show (match from_cstring bs with
      | none => Except.error PError.invalidText
      | some n => Except.ok (n, r')) = Except.error PError.invalidText
    unfold from_cstring
    rw [hbad]
    simp
  · intro bytes
    exact List.length_map bytes _

/-- Witness for C6: a 16-byte name field starting with the invalid
UTF-8 byte `0xFF` before the NUL terminator is rejected. -/
theorem texture_name_strictness_witness :
    texName ⟨[255, 0, 0, 0, 0, 0, 0, 0, 0, 0, 0, 0, 0, 0, 0, 0], 0⟩ =
      .error .invalidText :=
  texture_name_strictness.1 ⟨[255, 0, 0, 0, 0, 0, 0, 0, 0, 0, 0, 0, 0, 0, 0, 0], 0⟩
    ⟨[255, 0, 0, 0, 0, 0, 0, 0, 0, 0, 0, 0, 0, 0, 0, 0], 16⟩
    [255, 0, 0, 0, 0, 0, 0, 0, 0, 0, 0, 0, 0, 0, 0, 0] rfl (by decide)

/-! ## Texture placeholder slots (C7) -/

/-- Claim C7: a texture directory slot with relative offset `≤ 0` is
skipped without decoding or emitting anything, and the remaining slots
decode exactly as if the skipped slot were absent: the slot loop of
`parse_textures` gives the same result on `pre ++ [o] ++ post` as on
`pre ++ post` whenever `o ≤ 0`. -/
theorem texture_placeholder_skip (data : List Nat) (base : Nat)
    (pre post : List Int) (o : Int) (ho : o ≤ 0) :
    texLoop data base (pre ++ o :: post) = texLoop data base (pre ++ post) := by
  induction pre with
  | nil => simp [texLoop, ho]
  | cons a pre ih =>
    simp only [List.cons_append, texLoop, List.append_eq, ih]

/-- Witness for C7: a directory of slots `[-1, 1]` over an unreadable
byte source decodes identically to the directory `[1]`. -/
theorem texture_placeholder_skip_witness :
    texLoop [] 0 ([] ++ (-1 : Int) :: [1]) = texLoop [] 0 ([] ++ [1]) :=
  texture_placeholder_skip [] 0 [] [1] (-1) (by decide)

/-! ## Version-unified record shapes (C8) -/

/-- One decoding step at explicit positions, for chaining through a
record layout. -/
theorem leStep (w v pos pos2 : Nat) {data rest : List Nat} (hw : 0 < w)
    (hv : v < 256 ^ w) (hpos : pos2 = pos + w)
    (hc : data.drop pos = leBytes w v ++ rest) :
    readLE w ⟨data, pos⟩ = some (v, ⟨data, pos2⟩) ∧ data.drop pos2 = rest := by
  subst hpos
  exact ⟨readLE_drop w v ⟨data, pos⟩ rest hw hc hv,
    drop_after ⟨data, pos⟩ (leBytes w v) rest hc (leBytes_length w v)⟩

/-- The 20-byte narrow (`FaceV1`) wire encoding of a face's field values. -/
def encodeFaceV1 (p s eli ec ti tl bl l0 l1 lm : Nat) : List Nat :=
  leBytes 2 p ++ (leBytes 2 s ++ (leBytes 4 eli ++ (leBytes 2 ec ++ (leBytes 2 ti ++
    (leBytes 1 tl ++ (leBytes 1 bl ++ (leBytes 1 l0 ++ (leBytes 1 l1 ++
      (leBytes 4 lm ++ [])))))))))

/-- The 28-byte wide (BSP2 `Face`) wire encoding of the same field values. -/
def encodeFace (p s eli ec ti tl bl l0 l1 lm : Nat) : List Nat :=
  leBytes 4 p ++ (leBytes 4 s ++ (leBytes 4 eli ++ (leBytes 4 ec ++ (leBytes 4 ti ++
    (leBytes 1 tl ++ (leBytes 1 bl ++ (leBytes 1 l0 ++ (leBytes 1 l1 ++
      (leBytes 4 lm ++ [])))))))))

/-- The 4-byte narrow (`EdgeV1`) wire encoding of an edge. -/
def encodeEdgeV1 (v0 v1 : Nat) : List Nat :=
  leBytes 2 v0 ++ (leBytes 2 v1 ++ [])

/-- The 8-byte wide (BSP2 `Edge`) wire encoding of an edge. -/
def encodeEdge (v0 v1 : Nat) : List Nat :=
  leBytes 4 v0 ++ (leBytes 4 v1 ++ [])

/-- Claim C8: version-unified record shapes.  A narrow (V29) face or
edge record and a wide (BSP2) record carrying the same numeric field
values (each narrow `u16` field zero-extended, which preserves the
value) decode to the same canonical in-memory `Face` / `Edge`, the
narrow readers consuming 20 / 4 bytes and the wide ones 28 / 8. -/
theorem v1_v2_same_record (p s eli ec ti tl bl l0 l1 lm v0 v1 : Nat)
    (hp : p < 2 ^ 16) (hs : s < 2 ^ 16) (heli : eli < 2 ^ 32) (hec : ec < 2 ^ 16)
    (hti : ti < 2 ^ 16) (htl : tl < 2 ^ 8) (hbl : bl < 2 ^ 8) (hl0 : l0 < 2 ^ 8)
    (hl1 : l1 < 2 ^ 8) (hlm : lm < 2 ^ 32) (hv0 : v0 < 2 ^ 16) (hv1 : v1 < 2 ^ 16) :
    FaceV1.read ⟨encodeFaceV1 p s eli ec ti tl bl l0 l1 lm, 0⟩ =
      some (⟨p, s, eli, ec, ti, tl, bl, (l0, l1), lm⟩,
        ⟨encodeFaceV1 p s eli ec ti tl bl l0 l1 lm, 20⟩) ∧
    Face.read ⟨encodeFace p s eli ec ti tl bl l0 l1 lm, 0⟩ =
      some (⟨p, s, eli, ec, ti, tl, bl, (l0, l1), lm⟩,
        ⟨encodeFace p s eli ec ti tl bl l0 l1 lm, 28⟩) ∧
    EdgeV1.read ⟨encodeEdgeV1 v0 v1, 0⟩ = some (⟨v0, v1⟩, ⟨encodeEdgeV1 v0 v1, 4⟩) ∧
    Edge.read ⟨encodeEdge v0 v1, 0⟩ = some (⟨v0, v1⟩, ⟨encodeEdge v0 v1, 8⟩) := by
  have e16 : (2 : Nat) ^ 16 = 256 ^ 2 := by norm_num
  have e8 : (2 : Nat) ^ 8 = 256 ^ 1 := by norm_num
  have e32 : (2 : Nat) ^ 32 = 256 ^ 4 := by norm_num
  rw [e16] at hp hs hec hti hv0 hv1
  rw [e8] at htl hbl hl0 hl1
  rw [e32] at heli hlm
  have w1 : (0 : Nat) < 1 := by norm_num
  have w2 : (0 : Nat) < 2 := by norm_num
  have w4 : (0 : Nat) < 4 := by norm_num
  refine ⟨?_, ?_, ?_, ?_⟩
  · have d0 : (encodeFaceV1 p s eli ec ti tl bl l0 l1 lm).drop 0 =
        encodeFaceV1 p s eli ec ti tl bl l0 l1 lm := List.drop_zero _
    have h1 := leStep 2 p 0 2 w2 hp rfl d0
    have h2 := leStep 2 s 2 4 w2 hs rfl h1.2
    have h3 := leStep 4 eli 4 8 w4 heli rfl h2.2
    have h4 := leStep 2 ec 8 10 w2 hec rfl h3.2
    have h5 := leStep 2 ti 10 12 w2 hti rfl h4.2
    have h6 := leStep 1 tl 12 13 w1 htl rfl h5.2
    have h7 := leStep 1 bl 13 14 w1 hbl rfl h6.2
    have h8 := leStep 1 l0 14 15 w1 hl0 rfl h7.2
    have h9 := leStep 1 l1 15 16 w1 hl1 rfl h8.2
    have h10 := leStep 4 lm 16 20 w4 hlm rfl h9.2
    simp only [FaceV1.read, Option.bind_eq_bind, h1.1, h2.1, h3.1, h4.1, h5.1,
      h6.1, h7.1, h8.1, h9.1, h10.1, Option.some_bind, Option.pure_def]
  · have d0 : (encodeFace p s eli ec ti tl bl l0 l1 lm).drop 0 =
        encodeFace p s eli ec ti tl bl l0 l1 lm := List.drop_zero _
    have hp4 : p < 256 ^ 4 := lt_of_lt_of_le hp (by norm_num)
    have hs4 : s < 256 ^ 4 := lt_of_lt_of_le hs (by norm_num)
    have hec4 : ec < 256 ^ 4 := lt_of_lt_of_le hec (by norm_num)
    have hti4 : ti < 256 ^ 4 := lt_of_lt_of_le hti (by norm_num)
    have h1 := leStep 4 p 0 4 w4 hp4 rfl d0
    have h2 := leStep 4 s 4 8 w4 hs4 rfl h1.2
    have h3 := leStep 4 eli 8 12 w4 heli rfl h2.2
    have h4 := leStep 4 ec 12 16 w4 hec4 rfl h3.2
    have h5 := leStep 4 ti 16 20 w4 hti4 rfl h4.2
    have h6 := leStep 1 tl 20 21 w1 htl rfl h5.2
    have h7 := leStep 1 bl 21 22 w1 hbl rfl h6.2
    have h8 := leStep 1 l0 22 23 w1 hl0 rfl h7.2
    have h9 := leStep 1 l1 23 24 w1 hl1 rfl h8.2
    have h10 := leStep 4 lm 24 28 w4 hlm rfl h9.2
    simp only [Face.read, Option.bind_eq_bind, h1.1, h2.1, h3.1, h4.1, h5.1,
      h6.1, h7.1, h8.1, h9.1, h10.1, Option.some_bind, Option.pure_def]
  · have d0 : (encodeEdgeV1 v0 v1).drop 0 = encodeEdgeV1 v0 v1 := List.drop_zero _
    have h1 := leStep 2 v0 0 2 w2 hv0 rfl d0
    have h2 := leStep 2 v1 2 4 w2 hv1 rfl h1.2
    simp only [EdgeV1.read, Option.bind_eq_bind, h1.1, h2.1, Option.some_bind,
      Option.pure_def]
  · have d0 : (encodeEdge v0 v1).drop 0 = encodeEdge v0 v1 := List.drop_zero _
    have hv04 : v0 < 256 ^ 4 := lt_of_lt_of_le hv0 (by norm_num)
    have hv14 : v1 < 256 ^ 4 := lt_of_lt_of_le hv1 (by norm_num)
    have h1 := leStep 4 v0 0 4 w4 hv04 rfl d0
    have h2 := leStep 4 v1 4 8 w4 hv14 rfl h1.2
    simp only [Edge.read, Option.bind_eq_bind, h1.1, h2.1, Option.some_bind,
      Option.pure_def]

/-- Witness for C8: concrete narrow and wide encodings of the same
field values decode to the same records. -/
theorem v1_v2_same_record_witness :
    FaceV1.read ⟨encodeFaceV1 1 2 70000 3 4 5 6 7 8 900000, 0⟩ =
      some (⟨1, 2, 70000, 3, 4, 5, 6, (7, 8), 900000⟩,
        ⟨encodeFaceV1 1 2 70000 3 4 5 6 7 8 900000, 20⟩) ∧
    Face.read ⟨encodeFace 1 2 70000 3 4 5 6 7 8 900000, 0⟩ =
      some (⟨1, 2, 70000, 3, 4, 5, 6, (7, 8), 900000⟩,
        ⟨encodeFace 1 2 70000 3 4 5 6 7 8 900000, 28⟩) ∧
    EdgeV1.read ⟨encodeEdgeV1 11 12, 0⟩ = some (⟨11, 12⟩, ⟨encodeEdgeV1 11 12, 4⟩) ∧
    Edge.read ⟨encodeEdge 11 12, 0⟩ = some (⟨11, 12⟩, ⟨encodeEdge 11 12, 8⟩) :=
  v1_v2_same_record 1 2 70000 3 4 5 6 7 8 900000 11 12
    (by decide) (by decide) (by decide) (by decide) (by decide) (by decide)
    (by decide) (by decide) (by decide) (by decide) (by decide) (by decide)

/-! ## Mipmap geometry and palette expansion (C9) -/

end Bsp
